import Mathlib

/-!
Verification of the revision-reconciliation tool in `src/pkg_95120/run.py`.

The development shallowly embeds the functions of `run.py` that the spec
talks about: the Python string primitives the code uses (`in`, `rsplit`,
`join`, `replace`), the identity derivation inside `get_owner_repo`, the
per-entry lookup `get_rev_variances` together with `add_variance_to_dict`,
the thread fan-out of `start_thread` (parameterised by the completion
order of the threads), the manifest rewrite `update_pre_commit_config`,
and the error plumbing of `main`.  Remote GitHub answers are modelled as
explicit data (`RepoLookup`), file contents as explicit data
(`FileContent`), so every definition is executable.
-/

namespace UPC

/-! ## Python string primitives -/

/-- `subAt hay needle`: does `needle` occur at the very start of `hay`?
Used to build the Python substring test. -/
def subAt : List Char → List Char → Bool
  | _, [] => true
  | [], _ :: _ => false
  | c :: cs, d :: ds => c == d && subAt cs ds

/-- `hasSub hay needle`: does `needle` occur anywhere in `hay`? -/
def hasSub : List Char → List Char → Bool
  | [], needle => subAt [] needle
  | c :: cs, needle => subAt (c :: cs) needle || hasSub cs needle

/-- Python `needle in hay` on strings (substring containment). -/
def pyIn (needle hay : String) : Bool :=
  hasSub hay.data needle.data

/-- Python `s.split(sep)` for a one-character separator: empty parts are
kept, the empty string yields one empty part. -/
def pySplit (sep : Char) : List Char → List (List Char)
  | [] => [[]]
  | c :: cs =>
    match pySplit sep cs with
    | [] => [[]]
    | h :: t => if c == sep then [] :: h :: t else (c :: h) :: t

/-- Python `sep.join(parts)` for a one-character separator. -/
def pyJoin (sep : Char) : List (List Char) → List Char
  | [] => []
  | [x] => x
  | x :: xs => x ++ sep :: pyJoin sep xs

/-- Python `s.rsplit(sep, 2)`: split on the rightmost two separators only.
Realised by a full split followed by re-joining everything before the last
two parts, which coincides with CPython for a one-character separator. -/
def pyRsplitTwo (sep : Char) (s : List Char) : List (List Char) :=
  let parts := pySplit sep s
  if parts.length ≤ 3 then parts
  else pyJoin sep (parts.take (parts.length - 2)) :: parts.drop (parts.length - 2)

/-- Python list slice `l[-2:]`: the last two elements (or fewer). -/
def lastTwo (l : List (List Char)) : List (List Char) :=
  l.drop (l.length - 2)

/-- Python `s.replace(".git", "")`: remove every (non-overlapping,
left-to-right) occurrence of `.git`; not only a trailing suffix. -/
def pyReplaceGit : List Char → List Char
  | '.' :: 'g' :: 'i' :: 't' :: rest => pyReplaceGit rest
  | c :: cs => c :: pyReplaceGit cs
  | [] => []

/-- The identity derivation applied to each `repo` field inside
`get_owner_repo` (run.py line 65):
`'/'.join(r['repo'].rsplit('/', 2)[-2:]).replace('.git', '')`. -/
def owner_repo_of (repo : String) : String :=
  ⟨pyReplaceGit (pyJoin '/' (lastTwo (pyRsplitTwo '/' repo.data)))⟩

/-! ## Data model -/

/-- The dict `add_variance_to_dict` builds:
`{owner_repo: ..., current_rev: ..., new_rev: ...}`. -/
structure Variance where
  owner_repo : String
  current_rev : String
  new_rev : String
deriving DecidableEq

/-- run.py line 124: append one variance dict to `variance_list`. -/
def add_variance_to_dict (owner_repo current_rev new_rev : String)
    (variance_list : List Variance) : List Variance :=
  variance_list ++ [⟨owner_repo, current_rev, new_rev⟩]

/-- Single-quote character, used to spell out the `TAG_NAME` literal. -/
def squote : Char := Char.ofNat 39

/-- Wrap a word in single quotes, as the `TAG_NAME` literal does. -/
def quoted (w : String) : String :=
  ⟨squote :: w.data ++ [squote]⟩

/-- run.py line 29.  The Python source reads
`TAG_NAME = "('alpha' and 'beta' and 'prerelease' and 'pre-release' and 'rc')"`:
a single string literal consisting of an opening parenthesis, the five
marker words each wrapped in single quotes and separated by the word
`and`, and a closing parenthesis.  It is spelled out here character by
character (the quotes via `squote`). -/
def TAG_NAME : String :=
  "(" ++ quoted "alpha" ++ " and " ++ quoted "beta" ++ " and "
      ++ quoted "prerelease" ++ " and " ++ quoted "pre-release" ++ " and "
      ++ quoted "rc" ++ ")"

/-- Outcome of `repo.get_latest_release()`: either a release whose
`tag_name` is returned, or a `UnknownObjectException` with an HTTP
status (GitHub answers 404 when the repository has no releases). -/
inductive ReleaseLookup where
  | found (tag_name : String)
  | errStatus (status : Nat)
deriving DecidableEq

/-- The data of one upstream repository the code observes: the release
lookup outcome and `repo.get_tags()` as the list of tag names in
forge-provided order. -/
structure RepoModel where
  releaseLookup : ReleaseLookup
  tags : List String
deriving DecidableEq

/-- Outcome of `gh.get_repo(owner_repo)`: the repository, or an
`UnknownObjectException` with an HTTP status (404 when it does not
exist). -/
inductive RepoLookup where
  | found (repo : RepoModel)
  | errStatus (status : Nat)
deriving DecidableEq

/-- What becomes of the thread running `get_rev_variances`: it either
returns normally, or an exception escapes the function and kills the
thread (Python prints a traceback on stderr; the main thread is not
affected and `thread.join()` still succeeds). -/
inductive ThreadOutcome where
  | ok
  | uncaught
deriving DecidableEq

/-- run.py lines 92-121.  The variances the call appends to the shared
`variance_list` (zero or one), via `add_variance_to_dict` starting from
the empty contribution, together with how the thread ends.

* `gh.get_repo` failing with `UnknownObjectException` is caught by the
  outer handler (404 prints `repository not found`); nothing is appended.
* A found repository: `get_latest_release` either yields a release whose
  `tag_name` is compared to `current_rev` with `==`, or raises; a raise
  with status 404 falls back to
  `next(x for x in repo.get_tags() if TAG_NAME not in x.name)` and
  compares that tag name; a raise with any other status is swallowed by
  the inner handler.
* If no tag survives the `TAG_NAME not in x.name` filter, `next` raises
  `StopIteration`, which no handler catches: the exception escapes
  (`.uncaught`) and nothing is appended. -/
def get_rev_variances (lk : RepoLookup) (owner_repo current_rev : String) :
    List Variance × ThreadOutcome :=
  match lk with
  | .errStatus _ => ([], .ok)
  | .found repo =>
    match repo.releaseLookup with
    | .found tag_name =>
      if current_rev = tag_name then ([], .ok)
      else (add_variance_to_dict owner_repo current_rev tag_name [], .ok)
    | .errStatus status =>
      if status = 404 then
        match repo.tags.find? (fun name => !(pyIn TAG_NAME name)) with
        | some tag =>
          if current_rev = tag then ([], .ok)
          else (add_variance_to_dict owner_repo current_rev tag [], .ok)
        | none => ([], .uncaught)
      else ([], .ok)

/-- The "latest revision" the code resolves for an identity, read off the
branches of `get_rev_variances`: the latest release tag name if the
release lookup succeeds, otherwise (no-releases 404) the first tag
surviving the `TAG_NAME` filter; `none` when the repository is not found,
the release lookup fails with a status other than 404, or no tag
survives. -/
def oracleLatest (lk : RepoLookup) : Option String :=
  match lk with
  | .errStatus _ => none
  | .found repo =>
    match repo.releaseLookup with
    | .found tag_name => some tag_name
    | .errStatus status =>
      if status = 404 then repo.tags.find? (fun name => !(pyIn TAG_NAME name))
      else none

/-! ## Manifest Reader (`get_owner_repo`, run.py lines 52-70) -/

/-- Parsed YAML values, as far as the code inspects them: strings,
sequences and (insertion-ordered) mappings. -/
inductive Yaml where
  | s (v : String)
  | seq (items : List Yaml)
  | map (fields : List (String × Yaml))

/-- Python subscript `y[k]` on a parsed value: a value for the first
matching key of a mapping, otherwise nothing (Python raises `KeyError`,
or `TypeError` on a non-mapping). -/
def Yaml.lookup? : Yaml → String → Option Yaml
  | .map fields, k => (fields.find? (fun p => p.1 == k)).map (fun p => p.2)
  | _, _ => none

/-- What `open` plus `yaml.safe_load` can observe of the manifest file:
the path does not exist, the content does not parse, or a parsed
document. -/
inductive FileContent where
  | absent
  | malformed
  | parsed (doc : Yaml)

/-- The errors the read path can raise: `FileNotFoundError` (re-raised at
run.py line 68), `yaml.YAMLError` (re-raised at line 70), and the generic
`KeyError`/`TypeError` of a subscript on a missing key or a non-mapping,
which the handlers at lines 67-70 do not catch.  `data['repos']` is the
outermost iterable of the generator expression at line 66 and is
evaluated eagerly when the generator is created, so a missing top-level
key raises from `get_owner_repo` itself at call time, while the
per-item subscripts raise only as the generator is consumed. -/
inductive ReadError where
  | fileNotFound
  | yamlError
  | lookupError
deriving DecidableEq

instance {ε α : Type} [DecidableEq ε] [DecidableEq α] : DecidableEq (Except ε α) :=
  fun x y =>
    match x, y with
    | .ok a, .ok b =>
      match decEq a b with
      | isTrue h => isTrue (by rw [h])
      | isFalse h => isFalse (fun hh => h (by cases hh; rfl))
    | .error a, .error b =>
      match decEq a b with
      | isTrue h => isTrue (by rw [h])
      | isFalse h => isFalse (fun hh => h (by cases hh; rfl))
    | .ok _, .error _ => isFalse (fun hh => by cases hh)
    | .error _, .ok _ => isFalse (fun hh => by cases hh)

/-- One element the generator of `get_owner_repo` yields:
`{owner_repo: ..., current_rev: ...}`. -/
structure PreEntry where
  owner_repo : String
  current_rev : String
deriving DecidableEq

/-- The dict built for one item `r` of `data['repos']`: subscripts
`r['repo']` and `r['rev']` (a missing key or non-mapping item raises),
with the identity derivation applied to the `repo` field. -/
def entry_of_item (r : Yaml) : Except ReadError PreEntry :=
  match r.lookup? "repo", r.lookup? "rev" with
  | some (.s repo), some (.s rev) => .ok ⟨owner_repo_of repo, rev⟩
  | _, _ => .error .lookupError

/-- Iterating the generator over `data['repos']` item by item, in file
order, stopping at the first item whose subscripts raise. -/
def collect_entries : List Yaml → Except ReadError (List PreEntry)
  | [] => .ok []
  | r :: rest =>
    match entry_of_item r, collect_entries rest with
    | .ok e, .ok es => .ok (e :: es)
    | .error err, _ => .error err
    | .ok _, .error err => .error err

/-- run.py lines 52-70 together with the consumption of the returned
generator: `FileNotFoundError` when the path is missing,
`yaml.YAMLError` when parsing fails, and otherwise the elements produced
by iterating `data['repos']` in file order — where a document without
that top-level key raises a generic subscript error from the call
itself (the outermost iterable of the generator expression is evaluated
eagerly), ill-formed items raise one during consumption, and neither is
one of the two re-raised errors. -/
def get_owner_repo (fc : FileContent) : Except ReadError (List PreEntry) :=
  match fc with
  | .absent => .error .fileNotFound
  | .malformed => .error .yamlError
  | .parsed doc =>
    match doc.lookup? "repos" with
    | some (.seq items) => collect_entries items
    | _ => .error .lookupError

/-! ## Reconciliation fan-out (`start_thread`, run.py lines 73-89) -/

/-- The variances the thread for one manifest entry appends: the thread
target is `get_rev_variances(gh, variance_list, owner_repo, current_rev)`
and `gh.get_repo` is modelled as a map from `owner_repo` to its lookup
outcome. -/
def thread_appends (gh : String → RepoLookup) (e : PreEntry) : List Variance :=
  (get_rev_variances (gh e.owner_repo) e.owner_repo e.current_rev).1

/-- The contribution of the thread launched for entry index `i` (an
out-of-range index contributes nothing; every run uses indices of
`entries`). -/
def lookup_appends (gh : String → RepoLookup) (entries : List PreEntry)
    (i : Nat) : List Variance :=
  match entries[i]? with
  | some e => thread_appends gh e
  | none => []

/-- run.py lines 73-89: one thread per entry, all started, all joined.
Each thread performs at most one append to the shared `variance_list`
and CPython list appends are atomic, so a run is determined by the order
in which the threads' appends complete: `order` lists the entry indices
in completion order (a permutation of all indices, since `join` waits
for every thread).  The shared list ends up as the concatenation of the
per-thread contributions in that order. -/
def start_thread (gh : String → RepoLookup) (entries : List PreEntry)
    (order : List Nat) : List Variance :=
  order.flatMap (lookup_appends gh entries)

/-- The number of variances one entry ought to contribute: one when the
resolved latest revision exists and differs from the declared revision,
zero otherwise. -/
def expected_count (current_rev : String) (resolved : Option String) : Nat :=
  match resolved with
  | some latest => if current_rev = latest then 0 else 1
  | none => 0

/-! ## `main` (run.py lines 247-281) -/

/-- Outcome of `get_auth()`: success, or one of its two raises
(`KeyError` for a missing `GH_TOKEN`, `PermissionError` for bad
credentials). -/
inductive AuthOutcome where
  | authOk
  | missingToken
  | badCredentials
deriving DecidableEq

/-- run.py lines 247-281, restricted to the default dry-run path (no
file write, no PR): the whole body runs under one `try`; any exception
from `get_auth`, from `get_owner_repo`, or from consuming its generator
inside `start_thread` reaches the handler at line 279 and exits 1.
Exceptions that die inside worker threads never reach this handler, so
a completed fan-out always yields exit code 0.  Returns the exit code
and the final shared `variance_list` for the completion order `order`. -/
def main_result (gh : String → RepoLookup) (auth : AuthOutcome)
    (fc : FileContent) (order : List Nat) : Nat × List Variance :=
  match auth with
  | .missingToken => (1, [])
  | .badCredentials => (1, [])
  | .authOk =>
    match get_owner_repo fc with
    | .error _ => (1, [])
    | .ok entries => (0, start_thread gh entries order)

/-! ## Manifest Writer (`update_pre_commit_config`, run.py lines 139-157) -/

/-- One item of the re-read `data['repos']` list: its `repo` field, its
`rev` field, and every other field of the mapping (in key order); the
code touches only `rev`. -/
structure RepoEntry where
  repo : String
  rev : String
  extra : List (String × String)
deriving DecidableEq

/-- The body of the loop at run.py lines 152-154 for one `(index,
variance)` pair: if `variance['owner_repo'] in data['repos'][index]['repo']
and variance['current_rev'] in data['repos'][index]['rev']`, assign
`data['repos'][index]['rev'] = variance['new_rev']`. -/
def updateStep (data : List RepoEntry) (index : Nat) (v : Variance) :
    List RepoEntry :=
  match data[index]? with
  | some e =>
    if pyIn v.owner_repo e.repo && pyIn v.current_rev e.rev then
      data.set index { e with rev := v.new_rev }
    else data
  | none => data

/-- run.py lines 148-157: the flattened loop
`for index, variance in ((index, variance) for index in range(number_of_repos)
for variance in variance_list)` over the mutable document — index outer,
variance inner — with the step above. -/
def update_pre_commit_config (data : List RepoEntry)
    (variance_list : List Variance) : List RepoEntry :=
  (List.range data.length).foldl
    (fun d index => variance_list.foldl (fun d v => updateStep d index v) d)
    data

/-- The effect of one variance on one entry, when the nested loop is
read entry-wise (proved below to agree with `update_pre_commit_config`). -/
def applyVariance (e : RepoEntry) (v : Variance) : RepoEntry :=
  if pyIn v.owner_repo e.repo && pyIn v.current_rev e.rev then
    { e with rev := v.new_rev }
  else e

/-- All variances applied, in list order, to one entry. -/
def applyAll (e : RepoEntry) (vs : List Variance) : RepoEntry :=
  vs.foldl applyVariance e

/-- The same fold on the `rev` field alone, the `repo` field being fixed. -/
def revFold (r : String) (vs : List Variance) (rev : String) : String :=
  vs.foldl (fun rev v => if pyIn v.owner_repo r && pyIn v.current_rev rev then v.new_rev else rev) rev

/-! ## The pre-release filter as the spec words it -/

/-- The pre-release marker set named by the spec (§4.3). -/
def spec_pre_release_markers : List String :=
  ["alpha", "beta", "prerelease", "pre-release", "rc"]

/-- Modelled from the spec, for comparison with the source filter: a tag
qualifies when its name does not contain any of the five markers as a
substring (each marker checked independently, case-sensitive). -/
def spec_tag_qualifies (name : String) : Bool :=
  spec_pre_release_markers.all (fun m => !(pyIn m name))

/-! ## Decomposition of the writer loop into per-entry folds -/

lemma updateStep_length (d : List RepoEntry) (index : Nat) (v : Variance) :
    (updateStep d index v).length = d.length := by
  unfold updateStep
  cases h : d[index]? with
  | none => rfl
  | some e =>
    dsimp only
    split
    · exact List.length_set ..
    · rfl

lemma updateStep_getElem?_self (d : List RepoEntry) (index : Nat) (v : Variance) :
    (updateStep d index v)[index]? = (d[index]?).map (fun e => applyVariance e v) := by
  unfold updateStep applyVariance
  cases h : d[index]? with
  | none => simpa using h
  | some e =>
    have hlt : index < d.length := (List.getElem?_eq_some_iff.mp h).1
    dsimp only [Option.map_some']
    split
    · exact List.getElem?_set_self hlt
    · exact h

lemma updateStep_getElem?_ne (d : List RepoEntry) (index j : Nat) (v : Variance)
    (hne : index ≠ j) :
    (updateStep d index v)[j]? = d[j]? := by
  unfold updateStep
  cases h : d[index]? with
  | none => rfl
  | some e =>
    dsimp only
    split
    · exact List.getElem?_set_ne hne
    · rfl

lemma innerFold_length (index : Nat) (vs : List Variance) (d : List RepoEntry) :
    (vs.foldl (fun d v => updateStep d index v) d).length = d.length := by
  induction vs generalizing d with
  | nil => rfl
  | cons v vs ih => rw [List.foldl_cons, ih, updateStep_length]

lemma innerFold_getElem?_ne (index j : Nat) (hne : index ≠ j) (vs : List Variance)
    (d : List RepoEntry) :
    (vs.foldl (fun d v => updateStep d index v) d)[j]? = d[j]? := by
  induction vs generalizing d with
  | nil => rfl
  | cons v vs ih => rw [List.foldl_cons, ih, updateStep_getElem?_ne _ _ _ _ hne]

lemma innerFold_getElem?_self (index : Nat) (vs : List Variance) (d : List RepoEntry) :
    (vs.foldl (fun d v => updateStep d index v) d)[index]? =
      (d[index]?).map (fun e => applyAll e vs) := by
  induction vs generalizing d with
  | nil =>
    cases h : d[index]? <;> simp [h, applyAll]
  | cons v vs ih =>
    rw [List.foldl_cons, ih, updateStep_getElem?_self, Option.map_map]
    cases h : d[index]? <;> simp [h, applyAll]

lemma outerFold_getElem?_notMem (vs : List Variance) (idxs : List Nat)
    (d : List RepoEntry) (j : Nat) (hj : j ∉ idxs) :
    (idxs.foldl (fun d index => vs.foldl (fun d v => updateStep d index v) d) d)[j]? =
      d[j]? := by
  induction idxs generalizing d with
  | nil => rfl
  | cons i rest ih =>
    rw [List.foldl_cons, ih _ (fun h => hj (List.mem_cons_of_mem i h)),
      innerFold_getElem?_ne i j (fun h => hj (h ▸ List.mem_cons_self i rest)) vs d]

lemma outerFold_getElem?_mem (vs : List Variance) (idxs : List Nat)
    (d : List RepoEntry) (j : Nat) (hnd : idxs.Nodup) (hj : j ∈ idxs) :
    (idxs.foldl (fun d index => vs.foldl (fun d v => updateStep d index v) d) d)[j]? =
      (d[j]?).map (fun e => applyAll e vs) := by
  induction idxs generalizing d with
  | nil => cases hj
  | cons i rest ih =>
    rw [List.foldl_cons]
    rcases List.mem_cons.mp hj with hji | hjr
    · subst hji
      rw [outerFold_getElem?_notMem vs rest _ j (List.nodup_cons.mp hnd).1,
        innerFold_getElem?_self]
    · rw [ih _ (List.nodup_cons.mp hnd).2 hjr,
        innerFold_getElem?_ne i j
          (fun h => (List.nodup_cons.mp hnd).1 (h ▸ hjr)) vs d]

lemma outerFold_length (vs : List Variance) (idxs : List Nat) (d : List RepoEntry) :
    (idxs.foldl (fun d index => vs.foldl (fun d v => updateStep d index v) d) d).length =
      d.length := by
  induction idxs generalizing d with
  | nil => rfl
  | cons i rest ih => rw [List.foldl_cons, ih, innerFold_length]

/-- The nested `(index, variance)` loop of `update_pre_commit_config`
acts independently on each position: it maps every entry through the
fold of all variances, in `variance_list` order. -/
lemma update_eq_map (data : List RepoEntry) (vs : List Variance) :
    update_pre_commit_config data vs = data.map (fun e => applyAll e vs) := by
  apply List.ext_getElem?
  intro j
  by_cases hj : j < data.length
  · rw [update_pre_commit_config,
      outerFold_getElem?_mem vs (List.range data.length) data j
        (List.nodup_range data.length) (List.mem_range.mpr hj),
      List.getElem?_map]
  · have h1 : data.length ≤ j := Nat.le_of_not_lt hj
    rw [update_pre_commit_config]
    rw [List.getElem?_eq_none (by rw [outerFold_length]; exact h1),
      List.getElem?_eq_none (by rw [List.length_map]; exact h1)]

lemma applyVariance_repo (e : RepoEntry) (v : Variance) :
    (applyVariance e v).repo = e.repo := by
  unfold applyVariance; split <;> rfl

lemma applyVariance_extra (e : RepoEntry) (v : Variance) :
    (applyVariance e v).extra = e.extra := by
  unfold applyVariance; split <;> rfl

lemma applyVariance_rev (e : RepoEntry) (v : Variance) :
    (applyVariance e v).rev =
      if pyIn v.owner_repo e.repo && pyIn v.current_rev e.rev then v.new_rev
      else e.rev := by
  unfold applyVariance; split <;> rfl

/-- Per entry, the fold only rewrites the `rev` field, through `revFold`
over the fixed `repo` field. -/
lemma applyAll_eq_revFold (vs : List Variance) (e : RepoEntry) :
    applyAll e vs = ⟨e.repo, revFold e.repo vs e.rev, e.extra⟩ := by
  induction vs generalizing e with
  | nil => rfl
  | cons v vs ih =>
    rw [show applyAll e (v :: vs) = applyAll (applyVariance e v) vs from rfl, ih,
      applyVariance_repo, applyVariance_extra, applyVariance_rev,
      show revFold e.repo (v :: vs) e.rev = revFold e.repo vs
          (if pyIn v.owner_repo e.repo && pyIn v.current_rev e.rev then v.new_rev
           else e.rev) from rfl]

lemma applyAll_repo (vs : List Variance) (e : RepoEntry) :
    (applyAll e vs).repo = e.repo := by
  rw [applyAll_eq_revFold]

lemma applyAll_extra (vs : List Variance) (e : RepoEntry) :
    (applyAll e vs).extra = e.extra := by
  rw [applyAll_eq_revFold]

lemma applyVariance_no_match (e : RepoEntry) (v : Variance)
    (hcond : (pyIn v.owner_repo e.repo && pyIn v.current_rev e.rev) = false) :
    applyVariance e v = e := by
  simp [applyVariance, hcond]

lemma applyAll_no_match (vs : List Variance) (e : RepoEntry)
    (h : ∀ v ∈ vs, (pyIn v.owner_repo e.repo && pyIn v.current_rev e.rev) = false) :
    applyAll e vs = e := by
  induction vs with
  | nil => rfl
  | cons v vs ih =>
    rw [show applyAll e (v :: vs) = applyAll (applyVariance e v) vs from rfl,
      applyVariance_no_match e v (h v (List.mem_cons_self v vs))]
    exact ih (fun w hw => h w (List.mem_cons_of_mem v hw))

/-! ## Fan-out and permutation helpers -/

lemma flatMap_range_lookup_appends (gh : String → RepoLookup) :
    ∀ entries : List PreEntry,
      (List.range entries.length).flatMap (lookup_appends gh entries) =
        entries.flatMap (thread_appends gh) := by
  intro entries
  induction entries with
  | nil => rfl
  | cons e rest ih =>
    rw [List.length_cons, List.range_succ_eq_map, List.flatMap_cons,
      List.flatMap_map]
    have h0 : lookup_appends gh (e :: rest) 0 = thread_appends gh e := by
      unfold lookup_appends
      rw [List.getElem?_cons_zero]
    have hs : ∀ i : Nat,
        lookup_appends gh (e :: rest) (Nat.succ i) = lookup_appends gh rest i := by
      intro i
      unfold lookup_appends
      rw [List.getElem?_cons_succ]
    simp only [h0, hs, List.flatMap_cons]
    rw [ih]

lemma revFold_perm (r : String) {vs vs' : List Variance} (hp : vs.Perm vs')
    (huniq : ∀ v ∈ vs, ∀ w ∈ vs,
      pyIn v.owner_repo r = true → pyIn w.owner_repo r = true → v = w)
    (rev : String) :
    revFold r vs rev = revFold r vs' rev := by
  unfold revFold
  refine hp.foldl_eq' ?_ rev
  intro x hx y hy z
  cases hxb : pyIn x.owner_repo r with
  | false => simp [hxb]
  | true =>
    cases hyb : pyIn y.owner_repo r with
    | false => simp [hyb]
    | true => rw [huniq x hx y hy hxb hyb]

/-- Case analysis of `get_rev_variances` when the oracle resolves a
latest revision: one variance exactly on string inequality. -/
lemma get_rev_variances_resolved (lk : RepoLookup)
    (owner_repo current_rev latest : String)
    (h : oracleLatest lk = some latest) :
    (get_rev_variances lk owner_repo current_rev).1 =
      (if current_rev = latest then []
       else [⟨owner_repo, current_rev, latest⟩]) ∧
    (get_rev_variances lk owner_repo current_rev).2 = .ok := by
  cases lk with
  | errStatus s => cases h
  | found repo =>
    cases hr : repo.releaseLookup with
    | found tag_name =>
      simp only [oracleLatest, hr] at h
      cases h
      simp only [get_rev_variances, hr]
      constructor
      · split <;> rfl
      · split <;> rfl
    | errStatus status =>
      simp only [oracleLatest, hr] at h
      simp only [get_rev_variances, hr]
      by_cases h404 : status = 404
      · simp only [if_pos h404] at h ⊢
        cases hf : repo.tags.find? (fun name => !(pyIn TAG_NAME name)) with
        | none => rw [hf] at h; cases h
        | some tag =>
          rw [hf] at h
          cases h
          dsimp only
          constructor
          · split <;> rfl
          · split <;> rfl
      · rw [if_neg h404] at h
        cases h

/-- Case analysis of `get_rev_variances` when the oracle resolves
nothing: no variance is appended. -/
lemma get_rev_variances_unresolved (lk : RepoLookup)
    (owner_repo current_rev : String)
    (h : oracleLatest lk = none) :
    (get_rev_variances lk owner_repo current_rev).1 = [] := by
  cases lk with
  | errStatus s => rfl
  | found repo =>
    cases hr : repo.releaseLookup with
    | found tag_name => simp only [oracleLatest, hr] at h; cases h
    | errStatus status =>
      simp only [oracleLatest, hr] at h
      simp only [get_rev_variances, hr]
      by_cases h404 : status = 404
      · simp only [if_pos h404] at h ⊢
        rw [h]
      · rw [if_neg h404]

/-- `collect_entries` succeeds with a length-preserving result. -/
lemma collect_entries_length :
    ∀ (items : List Yaml) (entries : List PreEntry),
      collect_entries items = .ok entries → entries.length = items.length := by
  intro items
  induction items with
  | nil => intro entries h; cases h; rfl
  | cons r rest ih =>
    intro entries h
    unfold collect_entries at h
    cases he : entry_of_item r with
    | error err => rw [he] at h; cases h
    | ok e =>
      rw [he] at h
      cases hr : collect_entries rest with
      | error err => rw [hr] at h; cases h
      | ok es =>
        rw [hr] at h
        cases h
        rw [List.length_cons, List.length_cons, ih es hr]

/-- When every item parses, `collect_entries` returns exactly the item
list mapped through the per-item parse, preserving file order. -/
lemma collect_entries_map (pe : Yaml → PreEntry) :
    ∀ items : List Yaml, (∀ r ∈ items, entry_of_item r = .ok (pe r)) →
      collect_entries items = .ok (items.map pe) := by
  intro items
  induction items with
  | nil => intro _; rfl
  | cons r rest ih =>
    intro h
    unfold collect_entries
    rw [h r (List.mem_cons_self r rest),
      ih (fun w hw => h w (List.mem_cons_of_mem r hw)), List.map_cons]

/-! ## Claim theorems -/

/-- C1: for every manifest entry whose latest revision the oracle
resolves, no Variance is produced when the declared revision is exactly
string-equal to the resolved latest revision, and exactly one Variance —
carrying the identity, the declared revision and the latest revision
verbatim — is produced when they differ; the lookup thread returns
normally either way. -/
theorem claim_C1_exact_equality_variance (lk : RepoLookup)
    (owner_repo current_rev latest : String)
    (h : oracleLatest lk = some latest) :
    (get_rev_variances lk owner_repo current_rev).1 =
      (if current_rev = latest then []
       else [⟨owner_repo, current_rev, latest⟩]) ∧
    (get_rev_variances lk owner_repo current_rev).2 = .ok :=
  get_rev_variances_resolved lk owner_repo current_rev latest h

/-- C1 witness: the spec's own end-to-end instance — latest release
`7.2.0` against declared `7.1.2` yields exactly the one Variance. -/
theorem claim_C1_exact_equality_variance_witness :
    oracleLatest (.found ⟨.found "7.2.0", []⟩) = some "7.2.0" ∧
    (get_rev_variances (.found ⟨.found "7.2.0", []⟩) "pycqa/flake8" "7.1.2").1 =
      [⟨"pycqa/flake8", "7.1.2", "7.2.0"⟩] := by
  constructor
  · rfl
  · rw [(claim_C1_exact_equality_variance (.found ⟨.found "7.2.0", []⟩)
      "pycqa/flake8" "7.1.2" "7.2.0" rfl).1]
    rw [if_neg (by decide)]

/-- C2: the code evaluated at the claim's own scenario.  With zero
releases (404) and tags `[v2.0.0-rc1, v1.9.0]`, the filter
`TAG_NAME not in x.name` tests for the whole 64-character literal
`('alpha' and ... 'rc')` as a substring, which no real tag name
contains, so the FIRST tag `v2.0.0-rc1` is selected — not `v1.9.0` as
the claim (and the spec's marker set, `spec_tag_qualifies`) requires —
and a Variance towards the rc tag is produced for a declared `v1.9.0`. -/
theorem claim_C2_tag_filter_selects_rc :
    oracleLatest (.found ⟨.errStatus 404, ["v2.0.0-rc1", "v1.9.0"]⟩) =
      some "v2.0.0-rc1" ∧
    (get_rev_variances (.found ⟨.errStatus 404, ["v2.0.0-rc1", "v1.9.0"]⟩)
        "o/r" "v1.9.0").1 =
      [⟨"o/r", "v1.9.0", "v2.0.0-rc1"⟩] ∧
    ["v2.0.0-rc1", "v1.9.0"].find? spec_tag_qualifies = some "v1.9.0" := by
  refine ⟨by decide, by decide, by decide⟩

/-- C3 counterexample: the identity derivation applied to the SSH form
`git@x:o/n.git` does not yield `o/n` — the reference is split only on
`/`, never on `:`, so the owner segment keeps the `git@x:` prefix. -/
theorem claim_C3_ssh_counterexample :
    owner_repo_of "git@x:o/n.git" = "git@x:o/n" ∧
    ¬ (owner_repo_of "git@x:o/n.git" = "o/n") := by
  constructor
  · decide
  · decide

/-- C3 amended: at the spec's instance (owner `o`, name `n`, host `x`),
the URL form and the scheme-less form resolve to the same canonical
`o/n` and resolution is idempotent there; the identity is obtained by
keeping the last two `/`-separated segments and removing every
occurrence of `.git` (not only a trailing suffix); the SSH form is not
split at the colon and resolves to owner `git@x:o`, name `n`. -/
theorem claim_C3_identity_resolution_amended :
    owner_repo_of "https://x/o/n.git" = "o/n" ∧
    owner_repo_of "o/n" = "o/n" ∧
    owner_repo_of (owner_repo_of "https://x/o/n.git") =
      owner_repo_of "https://x/o/n.git" ∧
    owner_repo_of "git@x:o/n.git" = "git@x:o/n" := by
  refine ⟨by decide, by decide, by decide, by decide⟩

/-- C4: for every positional entry of the re-read document, the writer
folds the whole variance list over that entry, overwriting the revision
field with a Variance's `new_rev` exactly when the Variance's
`owner_repo` is a substring of the entry's `repo` field AND its
`current_rev` is a substring of the entry's current `rev` field
(substring matching via Python `in`, not exact equality). -/
theorem claim_C4_substring_match_overwrite (data : List RepoEntry)
    (vs : List Variance) (i : Nat) (h : i < data.length) :
    (update_pre_commit_config data vs)[i]? =
      some (vs.foldl
        (fun e v =>
          if pyIn v.owner_repo e.repo && pyIn v.current_rev e.rev then
            { e with rev := v.new_rev }
          else e)
        data[i]) := by
  rw [update_eq_map, List.getElem?_map, List.getElem?_eq_getElem h]
  rfl

/-- C4 witness: the spec's end-to-end instance — the `pycqa/flake8`
variance rewrites the matching entry's revision to `7.2.0`. -/
theorem claim_C4_substring_match_overwrite_witness :
    (update_pre_commit_config
        [⟨"https://github.com/pycqa/flake8", "7.1.2", []⟩]
        [⟨"pycqa/flake8", "7.1.2", "7.2.0"⟩])[0]? =
      some ⟨"https://github.com/pycqa/flake8", "7.2.0", []⟩ := by
  rw [claim_C4_substring_match_overwrite
    [⟨"https://github.com/pycqa/flake8", "7.1.2", []⟩]
    [⟨"pycqa/flake8", "7.1.2", "7.2.0"⟩] 0 (by decide)]
  decide

/-- C5: frame property of the writer — the empty variance list leaves
the document unchanged, and any variance list preserves the entry
count, every `repo` field and every other (non-`rev`) field; an entry
that no variance substring-matches is returned unchanged. -/
theorem claim_C5_writer_frame (data : List RepoEntry) (vs : List Variance) :
    update_pre_commit_config data [] = data ∧
    (update_pre_commit_config data vs).length = data.length ∧
    (∀ i : Nat, ((update_pre_commit_config data vs)[i]?).map RepoEntry.repo =
      (data[i]?).map RepoEntry.repo) ∧
    (∀ i : Nat, ((update_pre_commit_config data vs)[i]?).map RepoEntry.extra =
      (data[i]?).map RepoEntry.extra) ∧
    (∀ i : Nat, ∀ e : RepoEntry, data[i]? = some e →
      (∀ v ∈ vs, (pyIn v.owner_repo e.repo && pyIn v.current_rev e.rev) = false) →
      (update_pre_commit_config data vs)[i]? = some e) := by
  refine ⟨?_, ?_, ?_, ?_, ?_⟩
  · rw [update_eq_map]
    simp [applyAll]
  · rw [update_eq_map, List.length_map]
  · intro i
    rw [update_eq_map, List.getElem?_map]
    cases hd : data[i]? with
    | none => rfl
    | some e => simp [applyAll_repo]
  · intro i
    rw [update_eq_map, List.getElem?_map]
    cases hd : data[i]? with
    | none => rfl
    | some e => simp [applyAll_extra]
  · intro i e hd hno
    rw [update_eq_map, List.getElem?_map, hd]
    simp [applyAll_no_match vs e hno]

/-- C5 witness: a variance matching nothing leaves the sole entry — its
reference, revision and extra field — untouched. -/
theorem claim_C5_writer_frame_witness :
    (update_pre_commit_config [⟨"a/b", "1.0", [("x", "y")]⟩]
        [⟨"c/d", "9.9", "8.8"⟩])[0]? =
      some ⟨"a/b", "1.0", [("x", "y")]⟩ :=
  (claim_C5_writer_frame [⟨"a/b", "1.0", [("x", "y")]⟩]
      [⟨"c/d", "9.9", "8.8"⟩]).2.2.2.2 0
    ⟨"a/b", "1.0", [("x", "y")]⟩ rfl (by decide)

/-- C6 counterexample: applying the same variance set in two different
orders yields different documents.  Both variances match the entry's
original revision `1.0`; whichever runs first rewrites `rev`, after
which the other no longer matches — so `[v1, v2]` ends at `2.0` while
`[v2, v1]` ends at `3.0`. -/
theorem claim_C6_order_counterexample :
    ([⟨"o/n", "1.0", "2.0"⟩, ⟨"o/n", "1.0", "3.0"⟩] : List Variance).Perm
      [⟨"o/n", "1.0", "3.0"⟩, ⟨"o/n", "1.0", "2.0"⟩] ∧
    update_pre_commit_config [⟨"o/n", "1.0", []⟩]
        [⟨"o/n", "1.0", "2.0"⟩, ⟨"o/n", "1.0", "3.0"⟩] ≠
      update_pre_commit_config [⟨"o/n", "1.0", []⟩]
        [⟨"o/n", "1.0", "3.0"⟩, ⟨"o/n", "1.0", "2.0"⟩] := by
  constructor
  · exact List.Perm.swap _ _ _
  · decide

/-- C6 amended: the writer is order-independent provided that for each
entry at most one Variance in the set has its identity as a substring
of the entry's reference field (in particular when identities are
unique and non-overlapping, the invariant §3 of the spec assumes); in
general, permuting the variance list can change the result because a
fired overwrite alters the revision field later matches are tested
against. -/
theorem claim_C6_order_amended (data : List RepoEntry) (vs vs' : List Variance)
    (hp : vs.Perm vs')
    (huniq : ∀ e ∈ data, ∀ v ∈ vs, ∀ w ∈ vs,
      pyIn v.owner_repo e.repo = true → pyIn w.owner_repo e.repo = true → v = w) :
    update_pre_commit_config data vs = update_pre_commit_config data vs' := by
  rw [update_eq_map, update_eq_map]
  refine List.map_congr_left ?_
  intro e he
  rw [applyAll_eq_revFold, applyAll_eq_revFold,
    revFold_perm e.repo hp (huniq e he) e.rev]

/-- C6 amended witness: two variances for distinct, non-overlapping
identities may be applied in either order. -/
theorem claim_C6_order_amended_witness :
    update_pre_commit_config [⟨"a/b", "1.0", []⟩]
        [⟨"a/b", "1.0", "2.0"⟩, ⟨"c/d", "7.0", "8.0"⟩] =
      update_pre_commit_config [⟨"a/b", "1.0", []⟩]
        [⟨"c/d", "7.0", "8.0"⟩, ⟨"a/b", "1.0", "2.0"⟩] := by
  apply claim_C6_order_amended
  · exact List.Perm.swap _ _ _
  · intro e he
    rw [List.mem_singleton] at he
    subst he
    decide

/-- C7: when the release lookup reports 404 (no releases) and no tag in
the forge-provided list passes the filter — every name filtered out, or
the list empty — the oracle resolves nothing for the entry, no Variance
is produced for it, and a run whose manifest read succeeded still exits
0 (the `StopIteration` that `next` raises dies inside the worker thread
and never reaches the handler in `main`). -/
theorem claim_C7_no_qualifying_tag_soft (repo : RepoModel)
    (owner_repo current_rev : String) (gh : String → RepoLookup)
    (fc : FileContent) (entries : List PreEntry) (order : List Nat)
    (h404 : repo.releaseLookup = .errStatus 404)
    (hnone : repo.tags.find? (fun name => !(pyIn TAG_NAME name)) = none)
    (hread : get_owner_repo fc = .ok entries) :
    oracleLatest (.found repo) = none ∧
    (get_rev_variances (.found repo) owner_repo current_rev).1 = [] ∧
    (main_result gh .authOk fc order).1 = 0 := by
  have hor : oracleLatest (.found repo) = none := by
    simp only [oracleLatest, h404, if_pos rfl]
    exact hnone
  refine ⟨hor, get_rev_variances_unresolved _ _ _ hor, ?_⟩
  simp only [main_result, hread]

/-- C7 witness: an empty tag list after a no-releases 404, inside a run
over an empty manifest. -/
theorem claim_C7_no_qualifying_tag_soft_witness :
    oracleLatest (.found ⟨.errStatus 404, []⟩) = none ∧
    (get_rev_variances (.found ⟨.errStatus 404, []⟩) "o/r" "v1").1 = [] ∧
    (main_result (fun _ => .found ⟨.errStatus 404, []⟩) .authOk
      (.parsed (.map [("repos", .seq [])])) []).1 = 0 :=
  claim_C7_no_qualifying_tag_soft ⟨.errStatus 404, []⟩ "o/r" "v1"
    (fun _ => .found ⟨.errStatus 404, []⟩)
    (.parsed (.map [("repos", .seq [])])) [] [] rfl rfl rfl

/-- C8: an entry whose repository lookup fails with 404 contributes no
Variance and its thread returns normally; a run whose manifest read
succeeded completes with exit code 0, its variance list a permutation
of the per-entry contributions of ALL entries (so the remaining entries
are still processed). -/
theorem claim_C8_missing_repo_soft_skip (owner_repo current_rev : String)
    (gh : String → RepoLookup) (fc : FileContent) (entries : List PreEntry)
    (order : List Nat)
    (h404 : gh owner_repo = .errStatus 404)
    (hread : get_owner_repo fc = .ok entries)
    (hord : order.Perm (List.range entries.length)) :
    get_rev_variances (gh owner_repo) owner_repo current_rev = ([], .ok) ∧
    (main_result gh .authOk fc order).1 = 0 ∧
    (main_result gh .authOk fc order).2.Perm
      (entries.flatMap (thread_appends gh)) := by
  refine ⟨by rw [h404]; rfl, ?_, ?_⟩
  · simp only [main_result, hread]
  · simp only [main_result, hread]
    have h1 := hord.flatMap_right (lookup_appends gh entries)
    rw [flatMap_range_lookup_appends gh entries] at h1
    exact h1

/-- C8 witness: a two-entry manifest whose first repository is gone;
the second is still reconciled and the run exits 0. -/
theorem claim_C8_missing_repo_soft_skip_witness :
    get_rev_variances ((fun s => if s = "gone/gone" then .errStatus 404
        else .found ⟨.found "2.0", []⟩) "gone/gone") "gone/gone" "1.0" =
      ([], .ok) ∧
    (main_result (fun s => if s = "gone/gone" then .errStatus 404
        else .found ⟨.found "2.0", []⟩) .authOk
      (.parsed (.map [("repos", .seq
        [.map [("repo", .s "gone/gone"), ("rev", .s "1.0")],
         .map [("repo", .s "a/b"), ("rev", .s "1.0")]])])) [1, 0]).1 = 0 ∧
    (main_result (fun s => if s = "gone/gone" then .errStatus 404
        else .found ⟨.found "2.0", []⟩) .authOk
      (.parsed (.map [("repos", .seq
        [.map [("repo", .s "gone/gone"), ("rev", .s "1.0")],
         .map [("repo", .s "a/b"), ("rev", .s "1.0")]])])) [1, 0]).2.Perm
      ([⟨"gone/gone", "1.0"⟩, ⟨"a/b", "1.0"⟩].flatMap
        (thread_appends (fun s => if s = "gone/gone" then .errStatus 404
          else .found ⟨.found "2.0", []⟩))) :=
  claim_C8_missing_repo_soft_skip "gone/gone" "1.0"
    (fun s => if s = "gone/gone" then .errStatus 404
      else .found ⟨.found "2.0", []⟩)
    (.parsed (.map [("repos", .seq
      [.map [("repo", .s "gone/gone"), ("rev", .s "1.0")],
       .map [("repo", .s "a/b"), ("rev", .s "1.0")]])]))
    [⟨"gone/gone", "1.0"⟩, ⟨"a/b", "1.0"⟩] [1, 0]
    rfl rfl (by decide)

/-- C9 counterexample: a well-formed document that merely lacks the
top-level `repos` key makes the read fail with the generic subscript
(`KeyError`) outcome, not the `FormatError` (`yaml.YAMLError`) outcome
the claim requires. -/
theorem claim_C9_missing_key_counterexample :
    get_owner_repo (.parsed (.map [("hooks", .s "x")])) =
      .error .lookupError ∧
    (Except.error .lookupError : Except ReadError (List PreEntry)) ≠
      .error .yamlError := by
  exact ⟨rfl, by decide⟩

/-- C9 amended: the read fails with the not-found error when the path
does not exist and with the format error when the content does not
parse; a well-formed document lacking the top-level `repos` key instead
makes the read itself fail, at call time, with a generic subscript
error (`KeyError`) — the outermost iterable of the generator expression
is evaluated eagerly — not the format error; items lacking string
`repo`/`rev` fields raise such an error only when the sequence is
consumed; otherwise (every item carrying string `repo` and `rev`
fields) it returns the (identity, declared revision) pairs in file
order, one per item. -/
theorem claim_C9_reader_contract_amended (doc : Yaml) (items : List Yaml)
    (pe : Yaml → PreEntry) :
    get_owner_repo .absent = .error .fileNotFound ∧
    get_owner_repo .malformed = .error .yamlError ∧
    (∀ d : Yaml, d.lookup? "repos" = none →
      get_owner_repo (.parsed d) = .error .lookupError) ∧
    (doc.lookup? "repos" = some (.seq items) →
      (∀ r ∈ items, entry_of_item r = .ok (pe r)) →
      get_owner_repo (.parsed doc) = .ok (items.map pe)) := by
  refine ⟨rfl, rfl, ?_, ?_⟩
  · intro d hd
    simp only [get_owner_repo, hd]
  · intro hdoc hitems
    simp only [get_owner_repo, hdoc]
    exact collect_entries_map pe items hitems

/-- C9 witness: the three error shapes and a one-entry success, at
concrete documents. -/
theorem claim_C9_reader_contract_amended_witness :
    get_owner_repo (.parsed (.map [("unrelated", .s "x")])) =
      .error .lookupError ∧
    get_owner_repo (.parsed (.map [("repos", .seq
        [.map [("repo", .s "https://github.com/pycqa/flake8"),
               ("rev", .s "7.1.2")]])])) =
      .ok [⟨"pycqa/flake8", "7.1.2"⟩] := by
  constructor
  · exact (claim_C9_reader_contract_amended (.map []) [] (fun _ => ⟨"", ""⟩)).2.2.1
      (.map [("unrelated", .s "x")]) rfl
  · exact (claim_C9_reader_contract_amended
      (.map [("repos", .seq
        [.map [("repo", .s "https://github.com/pycqa/flake8"),
               ("rev", .s "7.1.2")]])])
      [.map [("repo", .s "https://github.com/pycqa/flake8"),
             ("rev", .s "7.1.2")]]
      (fun _ => ⟨"pycqa/flake8", "7.1.2"⟩)).2.2.2 rfl (by decide)

/-- C10: one lookup is launched per manifest entry and the engine joins
all of them; for ANY completion order (any permutation of the entry
indices) the resulting variance list is a permutation of the canonical
per-entry contributions — and each entry contributes exactly one
Variance when its resolved latest revision differs from the declared
one, and none when they agree or nothing resolves: no duplicates, no
drops. -/
theorem claim_C10_reconcile_no_dup_no_drop (gh : String → RepoLookup)
    (entries : List PreEntry) (order : List Nat)
    (hord : order.Perm (List.range entries.length)) :
    (start_thread gh entries order).Perm
      (entries.flatMap (thread_appends gh)) ∧
    (∀ e ∈ entries, (thread_appends gh e).length =
      expected_count e.current_rev (oracleLatest (gh e.owner_repo))) := by
  constructor
  · have h1 := hord.flatMap_right (lookup_appends gh entries)
    rw [flatMap_range_lookup_appends gh entries] at h1
    exact h1
  · intro e _
    cases ho : oracleLatest (gh e.owner_repo) with
    | none =>
      rw [thread_appends,
        get_rev_variances_unresolved (gh e.owner_repo) e.owner_repo e.current_rev ho]
      rfl
    | some latest =>
      rw [thread_appends,
        (get_rev_variances_resolved (gh e.owner_repo) e.owner_repo
          e.current_rev latest ho).1]
      simp only [expected_count]
      split <;> rfl

/-- C10 witness: a two-entry run completed in reversed order still
yields exactly the one variance of the mismatching entry. -/
theorem claim_C10_reconcile_no_dup_no_drop_witness :
    (start_thread
        (fun s => if s = "a/b" then .found ⟨.found "2.0", []⟩
          else .found ⟨.found "9.9", []⟩)
        [⟨"a/b", "1.0"⟩, ⟨"c/d", "9.9"⟩] [1, 0]).Perm
      ([⟨"a/b", "1.0"⟩, ⟨"c/d", "9.9"⟩].flatMap
        (thread_appends (fun s => if s = "a/b" then .found ⟨.found "2.0", []⟩
          else .found ⟨.found "9.9", []⟩))) :=
  (claim_C10_reconcile_no_dup_no_drop
    (fun s => if s = "a/b" then .found ⟨.found "2.0", []⟩
      else .found ⟨.found "9.9", []⟩)
    [⟨"a/b", "1.0"⟩, ⟨"c/d", "9.9"⟩] [1, 0] (by decide)).1

end UPC
